import Mathlib

/-!
Shallow embedding of the Go-Back-N reliable data transfer endpoint of
`rdt_protocol.py` (class `RDTSocket`), together with proofs of the spec's
claims about it.

Bytes are modelled as natural numbers below 256 and byte strings as
`List Nat`.  Python's unbounded integers are modelled by `Nat` (every
integer quantity in the source is non-negative at all times, and the one
place the source clamps a possibly negative value, `max(expected_seq_num
- 1, 0)`, coincides with truncated `Nat` subtraction).  `struct.pack("!I",
n)` is modelled by `u32ToBytes`, faithful for `n < 2^32` (the source
raises `struct.error` beyond that, which is why round-trip statements
carry a `< 2^32` bound).  `zlib.crc32` is the standard reflected CRC-32
(IEEE polynomial), implemented bit by bit.  The retransmission timer is
modelled by the flag `timer` (armed or not), `threading.Timer` object
identity being unobservable.  Methods that transmit datagrams return the
list of datagrams they hand to `sendto`.
-/

namespace RDT

/-- `MAX_PACKET_SIZE = 1400` from the source's configuration block. -/
def MAX_PACKET_SIZE : Nat := 1400

/-- `WINDOW_SIZE = 4` from the source's configuration block. -/
def WINDOW_SIZE : Nat := 4

/-! ## Byte-level helpers: `struct.pack`/`unpack` on the wire header -/

/-- Big-endian 4-byte encoding of a 32-bit value: `struct.pack("!I", n)`. -/
def u32ToBytes (n : Nat) : List Nat :=
  [n / 2 ^ 24 % 256, n / 2 ^ 16 % 256, n / 2 ^ 8 % 256, n % 256]

/-- Big-endian decoding of a byte list: `struct.unpack("!I", bs)`. -/
def bytesToU32 (bs : List Nat) : Nat :=
  bs.foldl (fun acc b => acc * 256 + b) 0

/-- `struct.pack("!?", b)`: one byte, `0x01` for `True`, `0x00` for `False`. -/
def boolToByte (b : Bool) : Nat := if b then 1 else 0

/-- The 5-byte header `struct.pack("!I?", seq_num, ack_flag)`. -/
def packHeader (seq_num : Nat) (ack_flag : Bool) : List Nat :=
  u32ToBytes seq_num ++ [boolToByte ack_flag]

/-! ## CRC32 (`zlib.crc32`, reflected IEEE polynomial) -/

/-- One bit step of the reflected CRC-32: shift right and conditionally
xor the reversed polynomial `0xEDB88320`. -/
def crc32Round (c : Nat) : Nat :=
  if c % 2 = 1 then Nat.xor (c / 2) 0xEDB88320 else c / 2

/-- Fold one input byte into the running CRC (eight bit steps). -/
def crc32Byte (crc b : Nat) : Nat :=
  crc32Round^[8] (Nat.xor crc (b % 256))

/-- `zlib.crc32(bs)`: initial value `0xFFFFFFFF`, final xor `0xFFFFFFFF`. -/
def crc32 (bs : List Nat) : Nat :=
  Nat.xor (bs.foldl crc32Byte 0xFFFFFFFF) 0xFFFFFFFF

/-! ## Packet codec (`_make_packet`, `_parse_packet`, `_is_corrupt`) -/

/-- `RDTSocket._make_packet`: header, then the CRC32 of header + payload
(`& 0xffffffff` is `% 2^32` on a non-negative value), then the payload. -/
def make_packet (seq_num : Nat) (data : List Nat) (ack_flag : Bool) : List Nat :=
  let header := packHeader seq_num ack_flag
  let checksum := crc32 (header ++ data) % 0x100000000
  header ++ u32ToBytes checksum ++ data

/-- `RDTSocket._parse_packet`: packets shorter than 9 bytes yield the
sentinel `(0, False, b'', 0)`; otherwise split off the 5-byte header, the
4-byte claimed checksum and the payload. -/
def parse_packet (packet : List Nat) : Nat × Bool × List Nat × Nat :=
  if packet.length < 9 then (0, false, [], 0)
  else
    let header := packet.take 5
    let cksum_bytes := (packet.drop 5).take 4
    let data := packet.drop 9
    let seq_num := bytesToU32 (header.take 4)
    let ack_flag := header.getD 4 0 != 0
    let received_cksum := bytesToU32 cksum_bytes
    (seq_num, ack_flag, data, received_cksum)

/-- `RDTSocket._is_corrupt`: recompute the CRC32 over the repacked header
and the payload and compare with the claimed checksum. -/
def is_corrupt (seq_num : Nat) (ack_flag : Bool) (data : List Nat)
    (received_cksum : Nat) : Bool :=
  crc32 (packHeader seq_num ack_flag ++ data) % 0x100000000 != received_cksum

/-! ## Codec round-trip lemmas -/

theorem bytesToU32_u32ToBytes (n : Nat) (h : n < 2 ^ 32) :
    bytesToU32 (u32ToBytes n) = n := by
  simp only [bytesToU32, u32ToBytes, List.foldl]
  omega

theorem parse_packet_cons (x0 x1 x2 x3 f c0 c1 c2 c3 : Nat) (data : List Nat) :
    parse_packet (x0 :: x1 :: x2 :: x3 :: f :: c0 :: c1 :: c2 :: c3 :: data) =
      (bytesToU32 [x0, x1, x2, x3], f != 0, data, bytesToU32 [c0, c1, c2, c3]) := by
  simp only [parse_packet]
  rw [if_neg (by simp only [List.length_cons]; omega)]
  rfl

theorem parse_make_packet (seq_num : Nat) (h : seq_num < 2 ^ 32)
    (data : List Nat) (ack_flag : Bool) :
    parse_packet (make_packet seq_num data ack_flag) =
      (seq_num, ack_flag, data,
        crc32 (packHeader seq_num ack_flag ++ data) % 0x100000000) := by
  have hcrc : crc32 (packHeader seq_num ack_flag ++ data) % 0x100000000 < 2 ^ 32 :=
    Nat.mod_lt _ (by norm_num)
  have e : make_packet seq_num data ack_flag =
      seq_num / 2 ^ 24 % 256 :: seq_num / 2 ^ 16 % 256 :: seq_num / 2 ^ 8 % 256 ::
        seq_num % 256 :: boolToByte ack_flag ::
        (crc32 (packHeader seq_num ack_flag ++ data) % 0x100000000) / 2 ^ 24 % 256 ::
        (crc32 (packHeader seq_num ack_flag ++ data) % 0x100000000) / 2 ^ 16 % 256 ::
        (crc32 (packHeader seq_num ack_flag ++ data) % 0x100000000) / 2 ^ 8 % 256 ::
        (crc32 (packHeader seq_num ack_flag ++ data) % 0x100000000) % 256 :: data := rfl
  rw [e, parse_packet_cons]
  have e1 : bytesToU32 [seq_num / 2 ^ 24 % 256, seq_num / 2 ^ 16 % 256,
      seq_num / 2 ^ 8 % 256, seq_num % 256] = bytesToU32 (u32ToBytes seq_num) := rfl
  have e2 : bytesToU32 [(crc32 (packHeader seq_num ack_flag ++ data) % 0x100000000) / 2 ^ 24 % 256,
      (crc32 (packHeader seq_num ack_flag ++ data) % 0x100000000) / 2 ^ 16 % 256,
      (crc32 (packHeader seq_num ack_flag ++ data) % 0x100000000) / 2 ^ 8 % 256,
      (crc32 (packHeader seq_num ack_flag ++ data) % 0x100000000) % 256] =
      bytesToU32 (u32ToBytes (crc32 (packHeader seq_num ack_flag ++ data) % 0x100000000)) := rfl
  rw [e1, e2, bytesToU32_u32ToBytes seq_num h, bytesToU32_u32ToBytes _ hcrc]
  cases ack_flag <;> simp [boolToByte]

theorem is_corrupt_make_packet (seq_num : Nat) (data : List Nat) (ack_flag : Bool) :
    is_corrupt seq_num ack_flag data
      (crc32 (packHeader seq_num ack_flag ++ data) % 0x100000000) = false := by
  simp [is_corrupt]

theorem is_corrupt_make_packet_nil (seq_num : Nat) (ack_flag : Bool) :
    is_corrupt seq_num ack_flag []
      (crc32 (packHeader seq_num ack_flag) % 0x100000000) = false := by
  simp [is_corrupt]

/-- C2. Parsing the packet produced by `_make_packet(seq, payload, is_ack)`
with `_parse_packet` returns the original `(seq, is_ack, payload)` together
with the claimed CRC, and `_is_corrupt` on that parse result is false. -/
theorem c2_codec_roundtrip (seq_num : Nat) (h : seq_num < 2 ^ 32)
    (ack_flag : Bool) (data : List Nat) :
    parse_packet (make_packet seq_num data ack_flag) =
      (seq_num, ack_flag, data,
        crc32 (packHeader seq_num ack_flag ++ data) % 0x100000000) ∧
    is_corrupt seq_num ack_flag data
      (crc32 (packHeader seq_num ack_flag ++ data) % 0x100000000) = false :=
  ⟨parse_make_packet seq_num h data ack_flag,
    is_corrupt_make_packet seq_num data ack_flag⟩

/-- Witness for C2 at `seq_num = 3`, `ack_flag = true`, `data = [7]`. -/
theorem c2_codec_roundtrip_witness :
    3 < 2 ^ 32 ∧
    (parse_packet (make_packet 3 [7] true) =
      (3, true, [7], crc32 (packHeader 3 true ++ [7]) % 0x100000000) ∧
    is_corrupt 3 true [7] (crc32 (packHeader 3 true ++ [7]) % 0x100000000) = false) :=
  ⟨by norm_num, c2_codec_roundtrip 3 (by norm_num) true [7]⟩

/-! ## Endpoint state (the mutable fields of an `RDTSocket` instance) -/

/-- The fields of an `RDTSocket`: peer address (addresses are opaque,
modelled as `Nat`), sender counters and buffer (`seq_num ↦ (packet_bytes,
timestamp)` as an association list), receiver counter and delivered queue,
timer armed flag, running flag.  `received_data` is attached lazily by
`_listen` in the source; it is present from construction here, which the
spec notes is observably identical. -/
structure RDTState where
  remote_addr : Option Nat
  send_base : Nat
  next_seq_num : Nat
  window_size : Nat
  send_buffer : List (Nat × List Nat × Nat)
  expected_seq_num : Nat
  received_data : List (List Nat)
  timer : Bool
  running : Bool
deriving Repr, DecidableEq

/-- The state `RDTSocket.__init__` establishes. -/
def initRDT : RDTState :=
  { remote_addr := none
    send_base := 0
    next_seq_num := 0
    window_size := WINDOW_SIZE
    send_buffer := []
    expected_seq_num := 0
    received_data := []
    timer := false
    running := true }

/-- `RDTSocket.connect`: record the remote address (the source performs no
already-connected check; it overwrites unconditionally). -/
def connect (remote_addr : Nat) (st : RDTState) : RDTState :=
  { st with remote_addr := some remote_addr }

/-- The chunking loop of `rdt_send`: consecutive slices of at most
`MAX_PACKET_SIZE - 20` bytes (`data[offset : offset + 1380]`). -/
def sliceData (data : List Nat) : List (List Nat) :=
  if h : data = [] then []
  else data.take (MAX_PACKET_SIZE - 20) :: sliceData (data.drop (MAX_PACKET_SIZE - 20))
termination_by data.length
decreasing_by
  simp only [List.length_drop]
  have : 0 < data.length := List.length_pos.mpr h
  simp only [MAX_PACKET_SIZE]
  omega

/-- `rdt_send`'s peer check and chunk decomposition: the list of chunks
handed to `_send_one_chunk`, in order, or the `ValueError` the source
raises when no remote address is set. -/
def rdt_send_chunks (st : RDTState) (data : List Nat) : Except String (List (List Nat)) :=
  if st.remote_addr = none then
    Except.error "Remote address not set. Call connect(...) or accept() first."
  else Except.ok (sliceData data)

/-- `RDTSocket._handle_data`: deliver and acknowledge an in-order data
packet, otherwise re-acknowledge the last in-order one.  The source
computes `last_in_order = expected_seq_num - 1` and clamps a negative
result to `0`; truncated `Nat` subtraction is exactly that clamp.  Returns
the new state and the datagrams handed to `sendto`. -/
def handle_data (seq_num : Nat) (data : List Nat) (st : RDTState) :
    RDTState × List (List Nat) :=
  if seq_num = st.expected_seq_num then
    let st1 : RDTState :=
      { st with received_data := st.received_data ++ [data]
                expected_seq_num := st.expected_seq_num + 1 }
    (st1, [make_packet (st1.expected_seq_num - 1) [] true])
  else
    let last_in_order := st.expected_seq_num - 1
    (st, [make_packet last_in_order [] true])

/-- `RDTSocket._handle_ack`: a cumulative ACK at or beyond `send_base`
advances the base, prunes the send buffer of keys `≤ ack_num`, and stops
the timer when the window empties (restarting it otherwise); a stale ACK
is ignored. -/
def handle_ack (ack_num : Nat) (st : RDTState) : RDTState :=
  if ack_num ≥ st.send_base then
    let st1 : RDTState :=
      { st with send_base := ack_num + 1
                send_buffer := st.send_buffer.filter fun e => !(e.1 ≤ ack_num) }
    if st1.send_base = st1.next_seq_num then { st1 with timer := false }
    else { st1 with timer := true }
  else st

/-- `RDTSocket._send_one_chunk`, the branch in which the window has room
(`next_seq_num < send_base + window_size`): assign the next sequence
number, buffer the encoded packet with its timestamp `now`, transmit it,
and arm the timer when the packet is the oldest unacknowledged one.
`none` models the source's busy-wait while the window is full. -/
def send_one_chunk (now : Nat) (chunk : List Nat) (st : RDTState) :
    Option (List Nat × RDTState) :=
  if st.next_seq_num < st.send_base + st.window_size then
    let seq_num := st.next_seq_num
    let packet := make_packet seq_num chunk false
    some (packet,
      { st with send_buffer := st.send_buffer ++ [(seq_num, packet, now)]
                next_seq_num := st.next_seq_num + 1
                timer := if st.send_base = seq_num then true else st.timer })
  else none

/-- `RDTSocket._timeout_handler`: retransmit every buffered packet with
key in `[send_base, next_seq_num)` in ascending order, then re-arm the
timer (`_start_timer` cancels any old timer and starts a fresh one). -/
def timeout_handler (st : RDTState) : RDTState × List (List Nat) :=
  ({ st with timer := true },
    (List.range' st.send_base (st.next_seq_num - st.send_base)).filterMap
      fun seq_num => (st.send_buffer.lookup seq_num).map Prod.fst)

/-- The body of `RDTSocket._listen` for one inbound datagram from source
address `addr`: skip empty datagrams, record the peer when none is set,
parse, drop corrupt frames, and dispatch ACKs to `_handle_ack` and data
to `_handle_data`.  Returns the new state and the datagrams sent. -/
def process_packet (addr : Nat) (packet : List Nat) (st : RDTState) :
    RDTState × List (List Nat) :=
  if packet = [] then (st, [])
  else
    let st1 := if st.remote_addr = none then { st with remote_addr := some addr } else st
    match parse_packet packet with
    | (seq_num, ack_flag, data, received_cksum) =>
      if is_corrupt seq_num ack_flag data received_cksum then (st1, [])
      else if ack_flag then (handle_ack seq_num st1, [])
      else handle_data seq_num data st1

/-- `rdt_recv` once the delivered queue is non-empty: pop the queue's
head.  `none` models the blocking while the queue is empty. -/
def rdt_recv (st : RDTState) : Option (List Nat × RDTState) :=
  match st.received_data with
  | [] => none
  | d :: rest => some (d, { st with received_data := rest })

/-- The `i`-th `rdt_recv` call (0-based) after `i` earlier pops. -/
def recv_iter : Nat → RDTState → Option (List Nat × RDTState)
  | 0, st => rdt_recv st
  | i + 1, st =>
    match rdt_recv st with
    | none => none
    | some (_, st2) => recv_iter i st2

/-! ## Receiver claims: C4 (branch behaviour) and C10 (frame) -/

/-- C4. For every receiver state and data packet: if `seq_num` equals
`expected_seq_num`, `_handle_data` appends the payload to the delivered
queue, increments `expected_seq_num`, and emits one ACK with sequence
`expected_seq_num - 1` post-increment; otherwise it changes nothing and
emits one ACK with sequence `max(expected_seq_num - 1, 0)`. -/
theorem c4_handle_data_cases (st : RDTState) (seq_num : Nat) (data : List Nat) :
    (seq_num = st.expected_seq_num →
      (handle_data seq_num data st).1.received_data = st.received_data ++ [data] ∧
      (handle_data seq_num data st).1.expected_seq_num = st.expected_seq_num + 1 ∧
      (handle_data seq_num data st).2 =
        [make_packet ((handle_data seq_num data st).1.expected_seq_num - 1) [] true]) ∧
    (seq_num ≠ st.expected_seq_num →
      (handle_data seq_num data st).1 = st ∧
      (handle_data seq_num data st).2 =
        [make_packet (max (st.expected_seq_num - 1) 0) [] true]) := by
  constructor
  · intro h
    simp [handle_data, h]
  · intro h
    simp [handle_data, h]

/-- C10. `_handle_data` touches only the receiver-side state: the sender
counters, the send buffer, the timer — and likewise the peer address, the
window size and the running flag — are unchanged. -/
theorem c10_handle_data_frame (st : RDTState) (seq_num : Nat) (data : List Nat) :
    (handle_data seq_num data st).1.send_base = st.send_base ∧
    (handle_data seq_num data st).1.next_seq_num = st.next_seq_num ∧
    (handle_data seq_num data st).1.send_buffer = st.send_buffer ∧
    (handle_data seq_num data st).1.timer = st.timer ∧
    (handle_data seq_num data st).1.remote_addr = st.remote_addr ∧
    (handle_data seq_num data st).1.window_size = st.window_size ∧
    (handle_data seq_num data st).1.running = st.running := by
  by_cases h : seq_num = st.expected_seq_num <;> simp [handle_data, h]

/-! ## C6: stale and duplicate ACKs are ignored -/

/-- C6. An ACK with `ack_num < send_base` leaves the whole sender state —
indeed the whole endpoint state — unchanged, under any number `k` of
repetitions. -/
theorem c6_stale_ack_ignored (st : RDTState) (ack_num : Nat)
    (h : ack_num < st.send_base) (k : Nat) :
    (handle_ack ack_num)^[k] st = st := by
  induction k with
  | zero => rfl
  | succ k ih =>
    rw [Function.iterate_succ_apply, show handle_ack ack_num st = st from
      if_neg (by omega), ih]

/-- Witness for C6: a stale ACK 0 against `send_base = 1`, repeated 3 times. -/
theorem c6_stale_ack_ignored_witness :
    0 < ({ initRDT with send_base := 1 } : RDTState).send_base ∧
    (handle_ack 0)^[3] { initRDT with send_base := 1 } =
      { initRDT with send_base := 1 } :=
  ⟨by decide, c6_stale_ack_ignored { initRDT with send_base := 1 } 0 (by decide) 3⟩

/-! ## C7: `rdt_send` chunking -/

theorem sliceData_nil : sliceData [] = [] := by
  rw [sliceData]
  simp

theorem sliceData_flatten (data : List Nat) : (sliceData data).flatten = data := by
  induction data using sliceData.induct with
  | case1 => simp [sliceData_nil]
  | case2 data h ih =>
    rw [sliceData, dif_neg h]
    simp only [List.flatten_cons, ih, List.take_append_drop]

theorem sliceData_length_le (data : List Nat) :
    ∀ c ∈ sliceData data, c.length ≤ MAX_PACKET_SIZE - 20 := by
  induction data using sliceData.induct with
  | case1 => rw [sliceData_nil]; simp
  | case2 data h ih =>
    rw [sliceData, dif_neg h]
    intro c hc
    rcases List.mem_cons.mp hc with rfl | hc
    · rw [List.length_take]
      exact min_le_left _ _
    · exact ih c hc

theorem sliceData_of_length_le (data : List Nat) (hne : data ≠ [])
    (h : data.length ≤ MAX_PACKET_SIZE - 20) : sliceData data = [data] := by
  rw [sliceData, dif_neg hne, List.take_of_length_le h,
    List.drop_eq_nil_iff.mpr h, sliceData_nil]

/-- C7. With a peer set, `rdt_send` slices its input into consecutive
chunks of at most `MAX_PACKET_SIZE - 20 = 1380` bytes whose concatenation
is the input, handing them to `_send_one_chunk` in that order; an input of
exactly 1380 bytes is one single chunk, and the empty input produces no
chunk at all. -/
theorem c7_rdt_send_slicing (data : List Nat) (st : RDTState) (q : Nat) :
    rdt_send_chunks (connect q st) data = Except.ok (sliceData data) ∧
    (sliceData data).flatten = data ∧
    (∀ c ∈ sliceData data, c.length ≤ MAX_PACKET_SIZE - 20) ∧
    (data.length = MAX_PACKET_SIZE - 20 → sliceData data = [data]) ∧
    (data = [] → sliceData data = []) := by
  refine ⟨by simp [rdt_send_chunks, connect], sliceData_flatten data,
    sliceData_length_le data, fun h => ?_, fun h => h ▸ sliceData_nil⟩
  have hne : data ≠ [] := by
    intro hnil
    rw [hnil] at h
    simp [MAX_PACKET_SIZE] at h
  exact sliceData_of_length_le data hne (le_of_eq h)

/-! ## C8: a second `connect` -/

/-- Counterexample to C8: after `connect 1`, a second `connect 2` raises
no error (the source's `connect` cannot fail) and replaces the recorded
peer, so the peer does not stay unchanged. -/
theorem c8_counterexample :
    (connect 1 initRDT).remote_addr = some 1 ∧
    (connect 2 (connect 1 initRDT)).remote_addr = some 2 ∧
    (connect 2 (connect 1 initRDT)).remote_addr ≠ (connect 1 initRDT).remote_addr := by
  refine ⟨rfl, rfl, ?_⟩
  decide

/-- C8 as amended: a second `connect` on an endpoint whose peer is already
set does not fail; it silently replaces the recorded peer with the new
address and leaves every other field unchanged. -/
theorem c8_connect_overwrites (st : RDTState) (a b : Nat)
    (_h : st.remote_addr = some a) :
    (connect b st).remote_addr = some b ∧
    (connect b st).send_base = st.send_base ∧
    (connect b st).next_seq_num = st.next_seq_num ∧
    (connect b st).window_size = st.window_size ∧
    (connect b st).send_buffer = st.send_buffer ∧
    (connect b st).expected_seq_num = st.expected_seq_num ∧
    (connect b st).received_data = st.received_data ∧
    (connect b st).timer = st.timer ∧
    (connect b st).running = st.running := by
  simp [connect]

/-- Witness for the amended C8 at a concrete connected endpoint. -/
theorem c8_connect_overwrites_witness :
    (connect 1 initRDT).remote_addr = some 1 ∧
    ((connect 2 (connect 1 initRDT)).remote_addr = some 2 ∧
    (connect 2 (connect 1 initRDT)).send_base = (connect 1 initRDT).send_base ∧
    (connect 2 (connect 1 initRDT)).next_seq_num = (connect 1 initRDT).next_seq_num ∧
    (connect 2 (connect 1 initRDT)).window_size = (connect 1 initRDT).window_size ∧
    (connect 2 (connect 1 initRDT)).send_buffer = (connect 1 initRDT).send_buffer ∧
    (connect 2 (connect 1 initRDT)).expected_seq_num = (connect 1 initRDT).expected_seq_num ∧
    (connect 2 (connect 1 initRDT)).received_data = (connect 1 initRDT).received_data ∧
    (connect 2 (connect 1 initRDT)).timer = (connect 1 initRDT).timer ∧
    (connect 2 (connect 1 initRDT)).running = (connect 1 initRDT).running) :=
  ⟨rfl, c8_connect_overwrites (connect 1 initRDT) 1 2 rfl⟩

/-! ## C9: short datagrams are discarded silently -/

set_option maxRecDepth 4000 in
theorem is_corrupt_sentinel : is_corrupt 0 false [] 0 = true := by decide

/-- C9. An inbound datagram shorter than 9 bytes is parsed to the sentinel
`(0, False, b'', 0)`, which `_is_corrupt` classifies as corrupt, so the
listener discards it: no datagram is emitted and all sender-side and
receiver-side state is unchanged. -/
theorem c9_short_datagram_discarded (packet : List Nat) (h : packet.length < 9)
    (addr : Nat) (st : RDTState) :
    parse_packet packet = (0, false, [], 0) ∧
    is_corrupt 0 false [] 0 = true ∧
    (process_packet addr packet st).2 = [] ∧
    (process_packet addr packet st).1.send_base = st.send_base ∧
    (process_packet addr packet st).1.next_seq_num = st.next_seq_num ∧
    (process_packet addr packet st).1.send_buffer = st.send_buffer ∧
    (process_packet addr packet st).1.timer = st.timer ∧
    (process_packet addr packet st).1.expected_seq_num = st.expected_seq_num ∧
    (process_packet addr packet st).1.received_data = st.received_data := by
  have hp : parse_packet packet = (0, false, [], 0) := by
    rw [parse_packet, if_pos h]
  refine ⟨hp, is_corrupt_sentinel, ?_, ?_, ?_, ?_, ?_, ?_, ?_⟩ <;>
    by_cases hnil : packet = [] <;>
      by_cases hra : st.remote_addr = none <;>
        simp [process_packet, hnil, hra, hp, is_corrupt_sentinel]

/-- Witness for C9 at a 3-byte datagram against the initial state. -/
theorem c9_short_datagram_discarded_witness :
    ([1, 2, 3] : List Nat).length < 9 ∧
    (parse_packet [1, 2, 3] = (0, false, [], 0) ∧
    is_corrupt 0 false [] 0 = true ∧
    (process_packet 7 [1, 2, 3] initRDT).2 = [] ∧
    (process_packet 7 [1, 2, 3] initRDT).1.send_base = initRDT.send_base ∧
    (process_packet 7 [1, 2, 3] initRDT).1.next_seq_num = initRDT.next_seq_num ∧
    (process_packet 7 [1, 2, 3] initRDT).1.send_buffer = initRDT.send_buffer ∧
    (process_packet 7 [1, 2, 3] initRDT).1.timer = initRDT.timer ∧
    (process_packet 7 [1, 2, 3] initRDT).1.expected_seq_num = initRDT.expected_seq_num ∧
    (process_packet 7 [1, 2, 3] initRDT).1.received_data = initRDT.received_data) :=
  ⟨by decide, c9_short_datagram_discarded [1, 2, 3] (by decide) 7 initRDT⟩

/-! ## Sender step relation: interleavings of `_send_one_chunk`,
`_handle_ack` and `_timeout_handler` -/

/-- No restriction on the acknowledgement numbers a peer may send. -/
def ackAny (_st : RDTState) (_n : Nat) : Prop := True

/-- Acknowledgements only for sequence numbers the sender has assigned. -/
def ackSent (st : RDTState) (n : Nat) : Prop := n < st.next_seq_num

/-- One atomic step of the sender's state machine: a completed
`_send_one_chunk` (which requires window room), a `_handle_ack` whose
acknowledgement number satisfies `ackOK`, or — when `timeoutSteps` is on —
a `_timeout_handler` firing, which presupposes an armed timer. -/
inductive SenderStep (ackOK : RDTState → Nat → Prop) (timeoutSteps : Bool) :
    RDTState → RDTState → Prop
  | send (now : Nat) (chunk : List Nat) (st st2 : RDTState) (packet : List Nat) :
      send_one_chunk now chunk st = some (packet, st2) →
      SenderStep ackOK timeoutSteps st st2
  | ack (n : Nat) (st : RDTState) : ackOK st n →
      SenderStep ackOK timeoutSteps st (handle_ack n st)
  | timeout (st : RDTState) : timeoutSteps = true → st.timer = true →
      SenderStep ackOK timeoutSteps st (timeout_handler st).1

theorem send_one_chunk_some (now : Nat) (chunk : List Nat) (st st2 : RDTState)
    (packet : List Nat) (h : send_one_chunk now chunk st = some (packet, st2)) :
    st.next_seq_num < st.send_base + st.window_size ∧
    st2 = { st with
      send_buffer :=
        st.send_buffer ++ [(st.next_seq_num, make_packet st.next_seq_num chunk false, now)]
      next_seq_num := st.next_seq_num + 1
      timer := if st.send_base = st.next_seq_num then true else st.timer } := by
  unfold send_one_chunk at h
  by_cases hw : st.next_seq_num < st.send_base + st.window_size
  · rw [if_pos hw] at h
    simp only [Option.some.injEq, Prod.mk.injEq] at h
    exact ⟨hw, h.2.symm⟩
  · rw [if_neg hw] at h
    exact absurd h (by simp)

/-- The sender counter invariant, with the window size pinned to `w`. -/
def counterInv (w : Nat) (s : RDTState) : Prop :=
  s.window_size = w ∧ s.send_base ≤ s.next_seq_num ∧ s.next_seq_num - s.send_base ≤ w

/-- The timer discipline: armed exactly while packets are outstanding. -/
def timerInv (s : RDTState) : Prop :=
  s.timer = true ↔ s.send_base < s.next_seq_num

theorem handle_ack_eq (ack_num : Nat) (st : RDTState) :
    handle_ack ack_num st =
      if st.send_base ≤ ack_num then
        if ack_num + 1 = st.next_seq_num then
          { st with send_base := ack_num + 1
                    send_buffer := st.send_buffer.filter fun e => !(e.1 ≤ ack_num)
                    timer := false }
        else
          { st with send_base := ack_num + 1
                    send_buffer := st.send_buffer.filter fun e => !(e.1 ≤ ack_num)
                    timer := true }
      else st := by
  by_cases h1 : st.send_base ≤ ack_num <;>
    by_cases h2 : ack_num + 1 = st.next_seq_num <;>
      simp [handle_ack, h1, h2]

theorem counterInv_step (t : Bool) (w : Nat) (s s2 : RDTState)
    (hstep : SenderStep ackSent t s s2) (hinv : counterInv w s) : counterInv w s2 := by
  obtain ⟨hw, hle, hdiff⟩ := hinv
  cases hstep with
  | send now chunk st st2 packet h =>
    obtain ⟨hroom, rfl⟩ := send_one_chunk_some now chunk _ _ packet h
    exact ⟨hw, by show s.send_base ≤ s.next_seq_num + 1; omega,
      by show s.next_seq_num + 1 - s.send_base ≤ w; omega⟩
  | ack n st hn =>
    unfold ackSent at hn
    rw [handle_ack_eq]
    by_cases h1 : s.send_base ≤ n
    · by_cases h2 : n + 1 = s.next_seq_num
      · rw [if_pos h1, if_pos h2]
        exact ⟨hw, by show n + 1 ≤ s.next_seq_num; omega,
          by show s.next_seq_num - (n + 1) ≤ w; omega⟩
      · rw [if_pos h1, if_neg h2]
        exact ⟨hw, by show n + 1 ≤ s.next_seq_num; omega,
          by show s.next_seq_num - (n + 1) ≤ w; omega⟩
    · rw [if_neg h1]
      exact ⟨hw, hle, hdiff⟩
  | timeout st ht htimer =>
    exact ⟨hw, hle, hdiff⟩

theorem timerInv_step (t : Bool) (w : Nat) (s s2 : RDTState)
    (hstep : SenderStep ackSent t s s2) (hc : counterInv w s) (hinv : timerInv s) :
    timerInv s2 := by
  obtain ⟨hw, hle, hdiff⟩ := hc
  unfold timerInv at hinv ⊢
  cases hstep with
  | send now chunk st st2 packet h =>
    obtain ⟨hroom, rfl⟩ := send_one_chunk_some now chunk _ _ packet h
    show (if s.send_base = s.next_seq_num then true else s.timer) = true ↔
      s.send_base < s.next_seq_num + 1
    by_cases heq : s.send_base = s.next_seq_num
    · rw [if_pos heq]
      exact ⟨fun _ => by omega, fun _ => rfl⟩
    · rw [if_neg heq, hinv]
      omega
  | ack n st hn =>
    unfold ackSent at hn
    rw [handle_ack_eq]
    by_cases h1 : s.send_base ≤ n
    · by_cases h2 : n + 1 = s.next_seq_num
      · rw [if_pos h1, if_pos h2]
        show false = true ↔ n + 1 < s.next_seq_num
        constructor
        · intro hf
          exact absurd hf (by simp)
        · intro hlt
          omega
      · rw [if_pos h1, if_neg h2]
        show true = true ↔ n + 1 < s.next_seq_num
        exact ⟨fun _ => by omega, fun _ => rfl⟩
    · rw [if_neg h1]
      exact hinv
  | timeout st ht htimer =>
    show true = true ↔ s.send_base < s.next_seq_num
    exact ⟨fun _ => hinv.mp htimer, fun _ => rfl⟩

theorem counterInv_reach (t : Bool) (w : Nat) (s0 s : RDTState)
    (h : Relation.ReflTransGen (SenderStep ackSent t) s0 s)
    (h0 : counterInv w s0) : counterInv w s := by
  induction h with
  | refl => exact h0
  | tail hab hbc ih => exact counterInv_step t w _ _ hbc ih

theorem sender_inv_reach (t : Bool) (w : Nat) (s0 s : RDTState)
    (h : Relation.ReflTransGen (SenderStep ackSent t) s0 s)
    (h0 : counterInv w s0 ∧ timerInv s0) : counterInv w s ∧ timerInv s := by
  induction h with
  | refl => exact h0
  | tail hab hbc ih =>
    exact ⟨counterInv_step t w _ _ hbc ih.1, timerInv_step t w _ _ hbc ih.1 ih.2⟩

/-! ## C3: the sender window invariant -/

/-- Counterexample to C3 as stated: from the initial sender state, one
`_handle_ack` step with the arbitrary ack number `0` (an ACK for a packet
that was never sent, which the receiver's re-ACK of `max(expected-1, 0)`
can in fact produce) moves `send_base` to `1` while `next_seq_num` is
still `0`, violating `send_base ≤ next_seq_num`. -/
theorem c3_counterexample :
    Relation.ReflTransGen (SenderStep ackAny false) initRDT (handle_ack 0 initRDT) ∧
    ¬ (handle_ack 0 initRDT).send_base ≤ (handle_ack 0 initRDT).next_seq_num :=
  ⟨Relation.ReflTransGen.single (SenderStep.ack 0 initRDT trivial), by decide⟩

/-- C3 as amended: in every state reachable from the initial sender state
(`send_base = 0`, `next_seq_num = 0`, window `WINDOW_SIZE`) by
interleavings of `_send_one_chunk` and `_handle_ack` steps in which every
acknowledgement number is below the current `next_seq_num` (an ACK for a
packet actually sent), `send_base ≤ next_seq_num` and
`next_seq_num - send_base ≤ W` hold. -/
theorem c3_sender_window_invariant (s0 s : RDTState)
    (h0 : s0.send_base = 0) (h1 : s0.next_seq_num = 0)
    (h2 : s0.window_size = WINDOW_SIZE)
    (hreach : Relation.ReflTransGen (SenderStep ackSent false) s0 s) :
    s.send_base ≤ s.next_seq_num ∧ s.next_seq_num - s.send_base ≤ WINDOW_SIZE := by
  have h := counterInv_reach false WINDOW_SIZE s0 s hreach ⟨h2, by omega, by omega⟩
  exact ⟨h.2.1, h.2.2⟩

/-- Witness for the amended C3 at the initial state itself. -/
theorem c3_sender_window_invariant_witness :
    initRDT.send_base = 0 ∧ initRDT.next_seq_num = 0 ∧
    initRDT.window_size = WINDOW_SIZE ∧
    (initRDT.send_base ≤ initRDT.next_seq_num ∧
      initRDT.next_seq_num - initRDT.send_base ≤ WINDOW_SIZE) :=
  ⟨rfl, rfl, rfl,
    c3_sender_window_invariant initRDT initRDT rfl rfl rfl Relation.ReflTransGen.refl⟩

/-! ## C5: the timer is armed iff packets are outstanding -/

/-- Counterexample to C5 as stated: the same arbitrary-ACK step
`_handle_ack 0` from the initial state arms the timer (its restart branch)
although `send_base < next_seq_num` is false afterwards. -/
theorem c5_counterexample :
    Relation.ReflTransGen (SenderStep ackAny true) initRDT (handle_ack 0 initRDT) ∧
    (handle_ack 0 initRDT).timer = true ∧
    ¬ (handle_ack 0 initRDT).send_base < (handle_ack 0 initRDT).next_seq_num :=
  ⟨Relation.ReflTransGen.single (SenderStep.ack 0 initRDT trivial), by decide, by decide⟩

/-- C5 as amended: in every state reachable from the initial socket state
by interleavings of `_send_one_chunk` steps, `_handle_ack` steps whose
acknowledgement number is below the current `next_seq_num`, and
`_timeout_handler` steps (which presuppose an armed timer), the
retransmission timer is armed iff `send_base < next_seq_num`. -/
theorem c5_timer_armed_iff (s0 s : RDTState)
    (h0 : s0.send_base = 0) (h1 : s0.next_seq_num = 0)
    (h2 : s0.window_size = WINDOW_SIZE) (h3 : s0.timer = false)
    (hreach : Relation.ReflTransGen (SenderStep ackSent true) s0 s) :
    (s.timer = true ↔ s.send_base < s.next_seq_num) := by
  refine (sender_inv_reach true WINDOW_SIZE s0 s hreach ⟨⟨h2, by omega, by omega⟩, ?_⟩).2
  unfold timerInv
  rw [h3, h0, h1]
  simp

/-- Witness for the amended C5 at the initial state itself. -/
theorem c5_timer_armed_iff_witness :
    initRDT.send_base = 0 ∧ initRDT.next_seq_num = 0 ∧
    initRDT.window_size = WINDOW_SIZE ∧ initRDT.timer = false ∧
    (initRDT.timer = true ↔ initRDT.send_base < initRDT.next_seq_num) :=
  ⟨rfl, rfl, rfl, rfl,
    c5_timer_armed_iff initRDT initRDT rfl rfl rfl rfl Relation.ReflTransGen.refl⟩

/-! ## C1: reliable delivery over a lossless, uncorrupting, in-order channel -/

/-- Feed a list of inbound datagrams from `addr` to the listener in order,
keeping the state. -/
def process_all (addr : Nat) (packets : List (List Nat)) (st : RDTState) : RDTState :=
  packets.foldl (fun s pk => (process_packet addr pk s).1) st

/-- The lossless, uncorrupting, in-order channel schedule: for each chunk
in order, the sender (address `p`, state `a`) completes `_send_one_chunk`,
the resulting data packet is handed to the receiver's listener (state
`b`), and every ACK the receiver emits is handed straight back to the
sender's listener (the receiver's address being `q`).  `none` arises only
if the window check can never pass. -/
def lossless_run (p q : Nat) :
    List (List Nat) → RDTState → RDTState → Option (RDTState × RDTState)
  | [], a, b => some (a, b)
  | c :: cs, a, b =>
    match send_one_chunk 0 c a with
    | none => none
    | some (packet, a1) =>
      let br := process_packet p packet b
      lossless_run p q cs (process_all q br.2 a1) br.1

theorem make_packet_ne_nil (seq_num : Nat) (data : List Nat) (ack_flag : Bool) :
    make_packet seq_num data ack_flag ≠ [] := by
  simp [make_packet, packHeader, u32ToBytes]

/-- The coupling between the two endpoints after `k` chunks have been sent
and acknowledged over the lossless channel: the sender's window is empty
at `k` and the receiver expects `k`. -/
def SyncedPair (k q : Nat) (a b : RDTState) : Prop :=
  a.send_base = k ∧ a.next_seq_num = k ∧ a.send_buffer = [] ∧
  a.remote_addr = some q ∧ 0 < a.window_size ∧ b.expected_seq_num = k

theorem send_one_chunk_eq (now : Nat) (chunk : List Nat) (st : RDTState)
    (h : st.next_seq_num < st.send_base + st.window_size) :
    send_one_chunk now chunk st =
      some (make_packet st.next_seq_num chunk false,
        { st with
          send_buffer := st.send_buffer ++
            [(st.next_seq_num, make_packet st.next_seq_num chunk false, now)]
          next_seq_num := st.next_seq_num + 1
          timer := if st.send_base = st.next_seq_num then true else st.timer }) := by
  unfold send_one_chunk
  rw [if_pos h]

theorem process_data_packet (p k : Nat) (hk : k < 2 ^ 32) (c : List Nat)
    (b : RDTState) (hb : b.expected_seq_num = k) :
    (process_packet p (make_packet k c false) b).1.expected_seq_num = k + 1 ∧
    (process_packet p (make_packet k c false) b).1.received_data =
      b.received_data ++ [c] ∧
    (process_packet p (make_packet k c false) b).2 = [make_packet k [] true] := by
  have hne := make_packet_ne_nil k c false
  by_cases hrb : b.remote_addr = none <;>
    simp [process_packet, hne, hrb, parse_make_packet k hk c false,
      is_corrupt_make_packet, handle_data, hb]

theorem process_ack_packet (q k ws es : Nat) (hk : k < 2 ^ 32)
    (rd : List (List Nat)) (rn : Bool) (pkt : List Nat) :
    process_packet q (make_packet k [] true)
        (RDTState.mk (some q) k (k + 1) ws [(k, pkt, 0)] es rd true rn) =
      (RDTState.mk (some q) (k + 1) (k + 1) ws [] es rd false rn, []) := by
  have hne := make_packet_ne_nil k [] true
  simp [process_packet, hne, parse_make_packet k hk [] true,
    is_corrupt_make_packet_nil, handle_ack_eq]

theorem lossless_step (p q k : Nat) (hk : k < 2 ^ 32) (c : List Nat)
    (a b : RDTState) (hs : SyncedPair k q a b) :
    ∃ packet a1, send_one_chunk 0 c a = some (packet, a1) ∧
      SyncedPair (k + 1) q (process_all q (process_packet p packet b).2 a1)
        (process_packet p packet b).1 ∧
      (process_packet p packet b).1.received_data = b.received_data ++ [c] := by
  obtain ⟨ha1, ha2, ha3, ha4, ha5, hb1⟩ := hs
  obtain ⟨ra, sb, ns, ws, sbuf, es, rd, tm, rn⟩ := a
  simp only at ha1 ha2 ha3 ha4 ha5
  subst sb ns sbuf ra
  obtain ⟨hexp, hrecv, hout⟩ := process_data_packet p k hk c b hb1
  refine ⟨make_packet k c false,
    RDTState.mk (some q) k (k + 1) ws [(k, make_packet k c false, 0)] es rd true rn,
    ?_, ?_, hrecv⟩
  · rw [send_one_chunk_eq 0 c (RDTState.mk (some q) k k ws [] es rd tm rn)
      (show k < k + ws from by omega)]
    simp
  · rw [hout]
    have hpa : process_all q [make_packet k [] true]
        (RDTState.mk (some q) k (k + 1) ws [(k, make_packet k c false, 0)] es rd true rn) =
        (process_packet q (make_packet k [] true)
          (RDTState.mk (some q) k (k + 1) ws [(k, make_packet k c false, 0)] es rd true rn)).1 :=
      rfl
    rw [hpa, process_ack_packet q k ws es hk rd rn (make_packet k c false)]
    exact ⟨rfl, rfl, rfl, rfl, by simpa using ha5, hexp⟩

theorem lossless_run_synced (p q : Nat) (chunks : List (List Nat)) :
    ∀ (k : Nat) (a b : RDTState), SyncedPair k q a b → k + chunks.length ≤ 2 ^ 32 →
      ∃ a2 b2, lossless_run p q chunks a b = some (a2, b2) ∧
        b2.received_data = b.received_data ++ chunks := by
  induction chunks with
  | nil =>
    intro k a b _ _
    exact ⟨a, b, rfl, by simp⟩
  | cons c cs ih =>
    intro k a b hs hbound
    have hk : k < 2 ^ 32 := by
      simp only [List.length_cons] at hbound
      omega
    obtain ⟨packet, a1, hsend, hsync, hrecv⟩ := lossless_step p q k hk c a b hs
    obtain ⟨a2, b2, hrun, hrd⟩ := ih (k + 1) _ _ hsync
      (by simp only [List.length_cons] at hbound ⊢; omega)
    refine ⟨a2, b2, ?_, ?_⟩
    · show (match send_one_chunk 0 c a with
        | none => none
        | some (packet, a1) =>
          let br := process_packet p packet b
          lossless_run p q cs (process_all q br.2 a1) br.1) = some (a2, b2)
      rw [hsend]
      exact hrun
    · rw [hrd, hrecv, List.append_assoc]
      rfl

theorem recv_iter_get (l : List (List Nat)) :
    ∀ (i : Nat) (st : RDTState), st.received_data = l →
      ∀ h : i < l.length,
        (recv_iter i st).map Prod.fst = some (l.get ⟨i, h⟩) := by
  induction l with
  | nil =>
    intro i st _ h
    exact absurd h (by simp)
  | cons d rest ih =>
    intro i st hst h
    cases i with
    | zero =>
      simp [recv_iter, rdt_recv, hst]
    | succ i =>
      have : rdt_recv st = some (d, { st with received_data := rest }) := by
        rw [rdt_recv, hst]
      rw [recv_iter, this]
      exact ih i { st with received_data := rest } rfl
        (by simpa using Nat.lt_of_succ_lt_succ h)

/-- C1. Over the lossless, uncorrupting, in-order channel: for every
non-empty list of payloads submitted through `rdt_send` on a connected
sender (each payload sliced by `rdt_send` into its chunks), running the
resulting data packets through the receiver's `_handle_data` in
sequence-number order — with every ACK returned to the sender — delivers
exactly the sent chunks, in order, to the delivered queue, and the `i`-th
`rdt_recv` call returns exactly the `i`-th chunk.  (The `≤ 2^32` bound is
the spec's own session bound: beyond it `struct.pack("!I", seq)` in
`_make_packet` raises.) -/
theorem c1_lossless_delivery (payloads : List (List Nat)) (p q : Nat)
    (_hne : payloads ≠ [])
    (hbound : ((payloads.map sliceData).flatten).length ≤ 2 ^ 32) :
    ∃ a2 b2,
      lossless_run p q ((payloads.map sliceData).flatten)
        (connect q initRDT) initRDT = some (a2, b2) ∧
      b2.received_data = (payloads.map sliceData).flatten ∧
      ∀ i (hi : i < ((payloads.map sliceData).flatten).length),
        (recv_iter i b2).map Prod.fst =
          some (((payloads.map sliceData).flatten).get ⟨i, hi⟩) := by
  obtain ⟨a2, b2, hrun, hrd⟩ := lossless_run_synced p q
    ((payloads.map sliceData).flatten) 0 (connect q initRDT) initRDT
    ⟨rfl, rfl, rfl, rfl, by simp [connect, initRDT, WINDOW_SIZE], rfl⟩
    (by simpa using hbound)
  have hrd2 : b2.received_data = (payloads.map sliceData).flatten := by
    simpa using hrd
  exact ⟨a2, b2, hrun, hrd2, fun i hi => recv_iter_get _ i b2 hrd2 hi⟩

/-- Witness for C1 at the single payload `[1, 2]` (one chunk). -/
theorem c1_lossless_delivery_witness :
    ([[1, 2]] : List (List Nat)) ≠ [] ∧
    ((([[1, 2]] : List (List Nat)).map sliceData).flatten).length ≤ 2 ^ 32 ∧
    ∃ a2 b2,
      lossless_run 5 6 ((([[1, 2]] : List (List Nat)).map sliceData).flatten)
        (connect 6 initRDT) initRDT = some (a2, b2) ∧
      b2.received_data = (([[1, 2]] : List (List Nat)).map sliceData).flatten ∧
      ∀ i (hi : i < ((([[1, 2]] : List (List Nat)).map sliceData).flatten).length),
        (recv_iter i b2).map Prod.fst =
          some (((([[1, 2]] : List (List Nat)).map sliceData).flatten).get ⟨i, hi⟩) := by
  have hs12 : sliceData [1, 2] = [[1, 2]] :=
    sliceData_of_length_le [1, 2] (by simp) (by norm_num [MAX_PACKET_SIZE])
  have hb : ((([[1, 2]] : List (List Nat)).map sliceData).flatten).length ≤ 2 ^ 32 := by
    simp [hs12]
  exact ⟨by simp, hb, c1_lossless_delivery [[1, 2]] 5 6 (by simp) hb⟩

end RDT
